import Mathlib

set_option autoImplicit false

namespace SuperSameboy

/-!
Shallow embedding of the Synchronized Emulation Driver of super-sameboy
(src/src/game_instance.cpp).  The emulation engine itself (SameBoy) is an
external collaborator; its state is abstracted (register observations,
breakpoint list, rewind history depth) while the driver logic is translated
from the source.
-/

/-! ## Video frame buffer (GameInstance::read_pixel_buffer, on_vblank,
update_pixel_buffer_size) -/

/-- Presentation mode enum, from `GameInstance::PixelBufferMode`. -/
inductive PixelBufferMode
  | PixelBufferSingle
  | PixelBufferDouble
  | PixelBufferDoubleBlend
deriving DecidableEq, Repr

/-- The video-relevant fields of a `GameInstance`.  The four pixel buffers
(`std::vector<std::uint32_t> pixel_buffer[4]`) are modelled as a total map
from buffer index to a list of 32-bit pixel values; indices 4 and above are
never used by reachable states (claim C8). -/
structure VideoState where
  pixel_buffer : Nat → List Nat
  work_buffer : Nat
  previous_buffer : Nat
  previous_buffer_second : Nat
  pixel_buffer_mode : PixelBufferMode

/-- Little-endian byte decomposition of one 32-bit pixel, as the byte
reinterpretation (`reinterpret_cast<std::uint8_t *>`) in the DoubleBlend
branch sees it. -/
def pixelBytes (p : Nat) : List Nat :=
  [p % 256, p / 256 % 256, p / 65536 % 256, p / 16777216 % 256]

/-- The byte image of a whole pixel buffer. -/
def pixelsToBytes (l : List Nat) : List Nat :=
  l.flatMap pixelBytes

/-- The in-place blending loop of the DoubleBlend branch:
`for q < bytes: a[q] = (a[q] + b[q]) / 2`.  Each destination byte is averaged
with the corresponding byte of the second source; bytes of `a` beyond the
length of `b` would be out-of-bounds reads in the source and are kept
unchanged here. -/
def blendLoop : List Nat → List Nat → List Nat
  | [], _ => []
  | a, [] => a
  | x :: xs, y :: ys => (x + y) / 2 :: blendLoop xs ys

/-- `GameInstance::read_pixel_buffer(destination, destination_length)`.
The destination memory is modelled as the list of its bytes; the returned
pair is (success, new destination contents).  `required_length` is the pixel
count of buffer 0, `bytes` the byte count copied by `memcpy`. -/
def read_pixel_buffer (s : VideoState) (destination : List Nat)
    (destination_length : Nat) : Bool × List Nat :=
  let required_length := (s.pixel_buffer 0).length
  if required_length = destination_length then
    let bytes := required_length * 4
    match s.pixel_buffer_mode with
    | PixelBufferMode.PixelBufferSingle =>
        (true, (pixelsToBytes (s.pixel_buffer s.work_buffer)).take bytes)
    | PixelBufferMode.PixelBufferDouble =>
        (true, (pixelsToBytes (s.pixel_buffer s.previous_buffer)).take bytes)
    | PixelBufferMode.PixelBufferDoubleBlend =>
        (true, blendLoop
          ((pixelsToBytes (s.pixel_buffer s.previous_buffer)).take bytes)
          (pixelsToBytes (s.pixel_buffer s.previous_buffer_second)))
  else
    (false, destination)

/-- The buffer-index rotation performed by `GameInstance::on_vblank`:
`previous_buffer_second <- previous_buffer`, `previous_buffer <- work_buffer`,
`work_buffer <- (work_buffer + 1) % 4` (4 = number of pixel buffers). -/
def on_vblank_rotate (s : VideoState) : VideoState :=
  { s with
      previous_buffer_second := s.previous_buffer,
      previous_buffer := s.work_buffer,
      work_buffer := (s.work_buffer + 1) % 4 }

/-- `GameInstance::update_pixel_buffer_size`: each of the four buffers is
replaced by a fresh vector of `n` pixels of value 0xFF000000 and all three
indices are reset to 0 (`n` is the engine-reported width times height). -/
def update_pixel_buffer_size (s : VideoState) (n : Nat) : VideoState :=
  { s with
      pixel_buffer := fun _ => List.replicate n 0xFF000000,
      work_buffer := 0,
      previous_buffer := 0,
      previous_buffer_second := 0 }

/-- `GameInstance::set_pixel_buffering_mode`. -/
def set_pixel_buffering_mode (s : VideoState) (m : PixelBufferMode) :
    VideoState :=
  { s with pixel_buffer_mode := m }

/-- States of the video buffer reachable by the driver: the constructor
calls `update_pixel_buffer_size` (indices all 0), after which the only
operations that touch the indices are the vblank rotation and further calls
to `update_pixel_buffer_size`; the mode selector may change at any time. -/
inductive VideoReachable : VideoState → Prop
  | boot (s : VideoState) (n : Nat) :
      VideoReachable (update_pixel_buffer_size s n)
  | vblank {s : VideoState} :
      VideoReachable s → VideoReachable (on_vblank_rotate s)
  | resize {s : VideoState} (n : Nat) :
      VideoReachable s → VideoReachable (update_pixel_buffer_size s n)
  | mode {s : VideoState} (m : PixelBufferMode) :
      VideoReachable s → VideoReachable (set_pixel_buffering_mode s m)

theorem blendLoop_eq_zipWith (a b : List Nat) (h : a.length = b.length) :
    blendLoop a b = List.zipWith (fun x y => (x + y) / 2) a b := by
  induction a generalizing b with
  | nil => cases b with
    | nil => rfl
    | cons y ys => simp at h
  | cons x xs ih =>
    cases b with
    | nil => simp at h
    | cons y ys =>
      simp only [List.length_cons, Nat.succ.injEq] at h
      simp [blendLoop, List.zipWith, ih ys h]

theorem pixelsToBytes_length (l : List Nat) :
    (pixelsToBytes l).length = l.length * 4 := by
  induction l with
  | nil => rfl
  | cons p ps ih =>
    simp [pixelsToBytes, pixelBytes] at ih ⊢
    omega

/-- Claim C1: for every destination buffer and length, `read_pixel_buffer`
returns true exactly when the given length equals the pixel count of the
pixel buffers; whenever the length differs it returns false and leaves the
destination untouched, in every presentation mode. -/
theorem read_pixel_buffer_length_check (s : VideoState)
    (destination : List Nat) (destination_length : Nat) :
    ((read_pixel_buffer s destination destination_length).1 = true ↔
      destination_length = (s.pixel_buffer 0).length) ∧
    (destination_length ≠ (s.pixel_buffer 0).length →
      read_pixel_buffer s destination destination_length =
        (false, destination)) := by
  constructor
  · constructor
    · intro h
      by_contra hne
      have hne' : ¬ ((s.pixel_buffer 0).length = destination_length) :=
        fun hc => hne hc.symm
      simp only [read_pixel_buffer, hne', if_false] at h
      exact Bool.false_ne_true h
    · intro h
      simp only [read_pixel_buffer, h.symm, if_true]
      cases s.pixel_buffer_mode <;> rfl
  · intro h
    have hne' : ¬ ((s.pixel_buffer 0).length = destination_length) :=
      fun hc => h hc.symm
    simp only [read_pixel_buffer, hne', if_false]

/-- Witness for C1 at a concrete state: correct length succeeds, wrong
length fails and leaves the destination bytes alone. -/
theorem read_pixel_buffer_length_check_witness :
    ((read_pixel_buffer
        ⟨fun _ => [1, 2], 0, 0, 0, PixelBufferMode.PixelBufferSingle⟩
        [9, 9, 9] 3).1 = true ↔ (3 : Nat) = 2) ∧
    ((3 : Nat) ≠ 2 →
      read_pixel_buffer
        ⟨fun _ => [1, 2], 0, 0, 0, PixelBufferMode.PixelBufferSingle⟩
        [9, 9, 9] 3 = (false, [9, 9, 9])) :=
  read_pixel_buffer_length_check
    ⟨fun _ => [1, 2], 0, 0, 0, PixelBufferMode.PixelBufferSingle⟩ [9, 9, 9] 3

/-- Claim C2: in DoubleBlend mode with the correct length, every output byte
is the integer average (a+b)/2 of the corresponding bytes of the `previous`
and `previous2` buffers at call time. -/
theorem read_pixel_buffer_double_blend (s : VideoState)
    (destination : List Nat) (destination_length : Nat)
    (hmode : s.pixel_buffer_mode = PixelBufferMode.PixelBufferDoubleBlend)
    (hlen : destination_length = (s.pixel_buffer 0).length)
    (hprev : (s.pixel_buffer s.previous_buffer).length =
      (s.pixel_buffer 0).length)
    (hprev2 : (s.pixel_buffer s.previous_buffer_second).length =
      (s.pixel_buffer 0).length) :
    read_pixel_buffer s destination destination_length =
      (true, List.zipWith (fun a b => (a + b) / 2)
        (pixelsToBytes (s.pixel_buffer s.previous_buffer))
        (pixelsToBytes (s.pixel_buffer s.previous_buffer_second))) := by
  subst hlen
  have htake : (pixelsToBytes (s.pixel_buffer s.previous_buffer)).take
      ((s.pixel_buffer 0).length * 4) =
      pixelsToBytes (s.pixel_buffer s.previous_buffer) := by
    apply List.take_of_length_le
    rw [pixelsToBytes_length, hprev]
  simp only [read_pixel_buffer, hmode, eq_self_iff_true, if_true, htake]
  rw [blendLoop_eq_zipWith]
  rw [pixelsToBytes_length, pixelsToBytes_length, hprev, hprev2]

/-- Witness for C2: two one-pixel buffers of bytes 0x00.. and 0xFF.. blend
to 0x7F per byte. -/
theorem read_pixel_buffer_double_blend_witness :
    read_pixel_buffer
      ⟨fun i => if i = 1 then [0] else if i = 2 then [0xFFFFFFFF] else [5],
        0, 1, 2, PixelBufferMode.PixelBufferDoubleBlend⟩ [9, 9, 9, 9] 1 =
      (true, [0x7F, 0x7F, 0x7F, 0x7F]) := by
  have h := read_pixel_buffer_double_blend
    ⟨fun i => if i = 1 then [0] else if i = 2 then [0xFFFFFFFF] else [5],
      0, 1, 2, PixelBufferMode.PixelBufferDoubleBlend⟩ [9, 9, 9, 9] 1
    rfl (by decide) (by decide) (by decide)
  rw [h]
  decide

/-- Claim C8: the vblank rotation is exactly
`previous2 <- previous`, `previous <- work`, `work <- (work+1) % 4`, and
every reachable state keeps the three indices below 4, valid indices into
the four pixel buffers. -/
theorem on_vblank_rotation_invariant :
    (∀ s : VideoState, on_vblank_rotate s =
      { s with
          previous_buffer_second := s.previous_buffer,
          previous_buffer := s.work_buffer,
          work_buffer := (s.work_buffer + 1) % 4 }) ∧
    (∀ s : VideoState, VideoReachable s →
      s.work_buffer < 4 ∧ s.previous_buffer < 4 ∧
        s.previous_buffer_second < 4) := by
  refine ⟨fun s => rfl, fun s h => ?_⟩
  induction h with
  | boot s n =>
    exact ⟨by simp [update_pixel_buffer_size], by simp [update_pixel_buffer_size],
      by simp [update_pixel_buffer_size]⟩
  | vblank _ ih =>
    refine ⟨?_, ih.1, ih.2.1⟩
    exact Nat.mod_lt _ (by decide)
  | resize n _ ih =>
    exact ⟨by simp [update_pixel_buffer_size], by simp [update_pixel_buffer_size],
      by simp [update_pixel_buffer_size]⟩
  | mode m _ ih => exact ih

/-- Witness for C8: the state after one rotation from a freshly sized
buffer set is reachable and has in-range indices. -/
theorem on_vblank_rotation_invariant_witness :
    (on_vblank_rotate (update_pixel_buffer_size
        ⟨fun _ => [], 0, 0, 0, PixelBufferMode.PixelBufferSingle⟩ 2)).work_buffer
      < 4 ∧
    (on_vblank_rotate (update_pixel_buffer_size
        ⟨fun _ => [], 0, 0, 0, PixelBufferMode.PixelBufferSingle⟩ 2)).previous_buffer
      < 4 ∧
    (on_vblank_rotate (update_pixel_buffer_size
        ⟨fun _ => [], 0, 0, 0, PixelBufferMode.PixelBufferSingle⟩ 2)).previous_buffer_second
      < 4 :=
  on_vblank_rotation_invariant.2 _
    (VideoReachable.vblank
      (VideoReachable.boot ⟨fun _ => [], 0, 0, 0, PixelBufferMode.PixelBufferSingle⟩ 2))

/-! ## Breakpoint handshake and break-and-trace
(GameInstance::on_input_requested, unbreak, remove_breakpoint,
break_and_trace_at) -/

/-- SM83 register observations read through `get_gb_register` at one
input-request callback. Values are engine-provided 16-bit words. -/
structure Regs where
  a : Nat
  b : Nat
  c : Nat
  d : Nat
  e : Nat
  f : Nat
  hl : Nat
  sp : Nat
  pc : Nat
deriving DecidableEq, Repr

/-- One observation of the engine at an input-request callback: the current
registers and the text the engine produces for a one-instruction
disassembly of the current program counter. -/
structure EngineObs where
  regs : Regs
  disassembly : String
deriving DecidableEq, Repr

/-- Flag masks of the F register (SameBoy `GB_CARRY_FLAG` etc., the standard
SM83 flag bit positions from the engine header). -/
def GB_CARRY_FLAG : Nat := 0x10

def GB_HALF_CARRY_FLAG : Nat := 0x20

def GB_SUBTRACT_FLAG : Nat := 0x40

def GB_ZERO_FLAG : Nat := 0x80

/-- Modelled from the spec: the Trace Snapshot record
(`GameInstance::BreakAndTraceResult`, whose declaration lives in the current
header that is not part of src/): registers A,B,C,D,E,F,HL,SP,PC, the four
flag bits, the derived stepOver flag and the disassembly text. -/
structure BreakAndTraceResult where
  a : Nat
  b : Nat
  c : Nat
  d : Nat
  e : Nat
  f : Nat
  hl : Nat
  sp : Nat
  pc : Nat
  carry : Bool
  half_carry : Bool
  subtract_flag : Bool
  zero_flag : Bool
  step_over : Bool
  disassembly : String
deriving DecidableEq, Repr

/-- The snapshot recorded in step 3 of `on_input_requested`: every register
is read, the flag bits are masked out of F, `step_over` is the session flag,
and the disassembly is the one-instruction disassembly of the current pc. -/
def mkSnapshot (step_over : Bool) (o : EngineObs) : BreakAndTraceResult :=
  { a := o.regs.a, b := o.regs.b, c := o.regs.c, d := o.regs.d, e := o.regs.e
    f := o.regs.f, hl := o.regs.hl, sp := o.regs.sp, pc := o.regs.pc
    carry := o.regs.f &&& GB_CARRY_FLAG != 0
    half_carry := o.regs.f &&& GB_HALF_CARRY_FLAG != 0
    subtract_flag := o.regs.f &&& GB_SUBTRACT_FLAG != 0
    zero_flag := o.regs.f &&& GB_ZERO_FLAG != 0
    step_over := step_over
    disassembly := o.disassembly }

/-- The debugger-related fields of a `GameInstance`.  A break-and-trace
entry is `(address, break_count, stepped_over)`; `engine_breakpoints` is the
breakpoint list held by the engine debugger, read back through
`get_breakpoints_without_mutex` and edited through `delete $xxxx` commands. -/
structure DriverState where
  current_break_and_trace_remaining : Nat
  current_break_and_trace_step_over : Bool
  break_and_trace_breakpoints : List (Nat × Nat × Bool)
  break_and_trace_result : List BreakAndTraceResult
  engine_breakpoints : List Nat
  bp_paused : Bool
  continue_text : Option String
deriving DecidableEq, Repr

/-- The scan of `break_and_trace_breakpoints` in step 2 of
`on_input_requested`: find the first entry whose address equals `pc`,
returning it together with the list with that entry erased. -/
def findFirstSplit (pc : Nat) :
    List (Nat × Nat × Bool) →
      Option ((Nat × Nat × Bool) × List (Nat × Nat × Bool))
  | [] => none
  | e :: rest =>
    if e.1 = pc then some (e, rest)
    else (findFirstSplit pc rest).map (fun p => (p.1, e :: p.2))

/-- `GameInstance::on_input_requested`, as a pure transition on the driver
state given the engine observation at the callback.  The returned command is
`some "next"` or `some "step"` while a break-and-trace session continues;
`none` models the pause path (step 4), where `bp_paused` is set and the
callback spins until `unbreak` supplies a continue command or the loop
finishes.  (The initial `reset_audio()` call touches only the separate audio
state, and the heap allocation of the returned command string is an
ownership detail outside the state.) -/
def on_input_requested (s : DriverState) (o : EngineObs) :
    DriverState × Option String :=
  let pc := o.regs.pc
  let step1 :=
    if s.current_break_and_trace_remaining > 0 then
      let r := s.current_break_and_trace_remaining - 1
      let bnt := decide (r > 0)
      let bnt := if bnt && s.engine_breakpoints.contains pc then false else bnt
      ({ s with current_break_and_trace_remaining := r }, bnt)
    else
      (s, false)
  let s1 := step1.1
  let step2 :=
    if step1.2 then (s1, true)
    else
      match findFirstSplit pc s1.break_and_trace_breakpoints with
      | none => (s1, false)
      | some (entry, rest) =>
        ({ s1 with
            current_break_and_trace_remaining := entry.2.1,
            current_break_and_trace_step_over := entry.2.2,
            break_and_trace_result := [],
            engine_breakpoints :=
              s1.engine_breakpoints.filter (fun i => i ≠ pc),
            break_and_trace_breakpoints := rest }, true)
  let s2 := step2.1
  if step2.2 then
    ({ s2 with
        break_and_trace_result := s2.break_and_trace_result ++
          [mkSnapshot s2.current_break_and_trace_step_over o] },
      some (if s2.current_break_and_trace_step_over then "next" else "step"))
  else
    ({ s2 with bp_paused := true }, none)

/-- Iterate `on_input_requested` over successive engine observations until a
callback takes the pause path (returns `none`) or the observations run out,
collecting the returned commands. -/
def run_until_pause (s : DriverState) :
    List EngineObs → DriverState × List (Option String)
  | [] => (s, [])
  | o :: rest =>
    let step := on_input_requested s o
    match step.2 with
    | none => (step.1, [none])
    | some c =>
      let next := run_until_pause step.1 rest
      (next.1, some c :: next.2)

/-- `GameInstance::unbreak(command)`: only when `is_paused_from_breakpoint()`
is true, store the pending continue command and clear the paused flag. -/
def unbreak (s : DriverState) (command : String) : DriverState :=
  if s.bp_paused then
    { s with continue_text := some command, bp_paused := false }
  else s

theorem findFirstSplit_some_length (pc : Nat) (l : List (Nat × Nat × Bool))
    (p : (Nat × Nat × Bool) × List (Nat × Nat × Bool))
    (h : findFirstSplit pc l = some p) : p.2.length < l.length := by
  induction l generalizing p with
  | nil => simp [findFirstSplit] at h
  | cons e rest ih =>
    by_cases he : e.1 = pc
    · simp only [findFirstSplit, he, if_true] at h
      cases h
      simp
    · simp only [findFirstSplit, he, if_false, Option.map_eq_some'] at h
      obtain ⟨q, hq, rfl⟩ := h
      have := ih q hq
      simp
      omega

/-- The erase loop of `GameInstance::remove_breakpoint`: repeatedly scan the
break-and-trace entry list from the front and erase the first entry whose
address matches, until no entry matches. -/
def removeMatchingEntries (breakpoint : Nat) (l : List (Nat × Nat × Bool)) :
    List (Nat × Nat × Bool) :=
  match h : findFirstSplit breakpoint l with
  | none => l
  | some p => removeMatchingEntries breakpoint p.2
termination_by l.length
decreasing_by exact findFirstSplit_some_length breakpoint l p h

/-- `GameInstance::remove_breakpoint(breakpoint)`: a `delete $xxxx` command
is sent to the engine debugger, then every matching break-and-trace entry is
erased. -/
def remove_breakpoint (s : DriverState) (breakpoint : Nat) : DriverState :=
  { s with
      engine_breakpoints :=
        s.engine_breakpoints.filter (fun i => i ≠ breakpoint),
      break_and_trace_breakpoints :=
        removeMatchingEntries breakpoint s.break_and_trace_breakpoints }

/-- `GameInstance::break_and_trace_at(address, n, over)`: remove any previous
breakpoint at the address, register the entry, and set the engine
breakpoint. -/
def break_and_trace_at (s : DriverState) (address n : Nat) (over : Bool) :
    DriverState :=
  let s := remove_breakpoint s address
  { s with
      break_and_trace_breakpoints :=
        s.break_and_trace_breakpoints ++ [(address, n, over)],
      engine_breakpoints := s.engine_breakpoints ++ [address] }

theorem on_input_mid_session (s : DriverState) (o : EngineObs)
    (hr : 1 < s.current_break_and_trace_remaining)
    (hbp : o.regs.pc ∉ s.engine_breakpoints) :
    on_input_requested s o =
      ({ s with
          current_break_and_trace_remaining :=
            s.current_break_and_trace_remaining - 1,
          break_and_trace_result := s.break_and_trace_result ++
            [mkSnapshot s.current_break_and_trace_step_over o] },
        some (if s.current_break_and_trace_step_over then "next"
          else "step")) := by
  have h0 : 0 < s.current_break_and_trace_remaining := by omega
  simp [on_input_requested, h0, hr, hbp]

theorem on_input_last_step (s : DriverState) (o : EngineObs)
    (hr : s.current_break_and_trace_remaining = 1)
    (hent : findFirstSplit o.regs.pc s.break_and_trace_breakpoints = none) :
    on_input_requested s o =
      ({ s with current_break_and_trace_remaining := 0, bp_paused := true },
        none) := by
  simp [on_input_requested, hr, hent]

theorem on_input_trigger (s : DriverState) (o : EngineObs)
    (entry : Nat × Nat × Bool) (rest : List (Nat × Nat × Bool))
    (hr : s.current_break_and_trace_remaining = 0)
    (hfind : findFirstSplit o.regs.pc s.break_and_trace_breakpoints =
      some (entry, rest)) :
    on_input_requested s o =
      ({ s with
          current_break_and_trace_remaining := entry.2.1,
          current_break_and_trace_step_over := entry.2.2,
          break_and_trace_result := [mkSnapshot entry.2.2 o],
          engine_breakpoints :=
            s.engine_breakpoints.filter (fun i => i ≠ o.regs.pc),
          break_and_trace_breakpoints := rest },
        some (if entry.2.2 then "next" else "step")) := by
  simp [on_input_requested, hr, hfind]

theorem on_input_abort (s : DriverState) (o : EngineObs)
    (hr : 1 < s.current_break_and_trace_remaining)
    (hbp : o.regs.pc ∈ s.engine_breakpoints)
    (hent : findFirstSplit o.regs.pc s.break_and_trace_breakpoints = none) :
    on_input_requested s o =
      ({ s with
          current_break_and_trace_remaining :=
            s.current_break_and_trace_remaining - 1,
          bp_paused := true },
        none) := by
  have h0 : 0 < s.current_break_and_trace_remaining := by omega
  have h1 : ¬ (s.current_break_and_trace_remaining ≤ 1) := by omega
  simp [on_input_requested, h0, hr, h1, hbp, hent]

theorem run_until_pause_cons_some (s : DriverState) (o : EngineObs)
    (obss : List EngineObs) (s' : DriverState) (c : String)
    (h : on_input_requested s o = (s', some c)) :
    run_until_pause s (o :: obss) =
      ((run_until_pause s' obss).1,
        some c :: (run_until_pause s' obss).2) := by
  simp [run_until_pause, h]

theorem run_until_pause_cons_none (s : DriverState) (o : EngineObs)
    (obss : List EngineObs) (s' : DriverState)
    (h : on_input_requested s o = (s', none)) :
    run_until_pause s (o :: obss) = (s', [none]) := by
  simp [run_until_pause, h]

/-- During an active session with `remaining` equal to the number of
observations left before pausing, a clean run (no breakpoint hit, no further
entry match) appends one snapshot per callback except the last and then
pauses. -/
theorem session_run (obss : List EngineObs) (s : DriverState)
    (hr : s.current_break_and_trace_remaining = obss.length)
    (hpos : 0 < obss.length)
    (hbp : ∀ o ∈ obss.take (obss.length - 1),
      o.regs.pc ∉ s.engine_breakpoints)
    (hent : ∀ o ∈ obss,
      findFirstSplit o.regs.pc s.break_and_trace_breakpoints = none) :
    run_until_pause s obss =
      ({ s with
          current_break_and_trace_remaining := 0,
          break_and_trace_result := s.break_and_trace_result ++
            (obss.take (obss.length - 1)).map
              (mkSnapshot s.current_break_and_trace_step_over),
          bp_paused := true },
        List.replicate (obss.length - 1)
            (some (if s.current_break_and_trace_step_over then "next"
              else "step"))
          ++ [none]) := by
  induction obss generalizing s with
  | nil => simp at hpos
  | cons o rest ih =>
    cases rest with
    | nil =>
      have hstep := on_input_last_step s o (by simpa using hr)
        (hent o (by simp))
      rw [run_until_pause_cons_none s o [] _ hstep]
      simp
    | cons r rest' =>
      have hr1 : 1 < s.current_break_and_trace_remaining := by
        rw [hr]; simp
      have hbp0 : o.regs.pc ∉ s.engine_breakpoints := by
        apply hbp o; simp
      have hstep := on_input_mid_session s o hr1 hbp0
      have hrec := ih
        { s with
            current_break_and_trace_remaining :=
              s.current_break_and_trace_remaining - 1,
            break_and_trace_result := s.break_and_trace_result ++
              [mkSnapshot s.current_break_and_trace_step_over o] }
        (by simp [hr]) (by simp)
        (by
          intro o' ho'
          have ho'' : o' ∈ List.take rest'.length (r :: rest') := by
            simpa using ho'
          apply hbp o'
          simp only [List.length_cons, Nat.add_sub_cancel,
            List.take_succ_cons, List.mem_cons]
          exact Or.inr ho'')
        (by
          intro o' ho'
          exact hent o' (List.mem_cons_of_mem o ho'))
      rw [run_until_pause_cons_some s o (r :: rest') _ _ hstep, hrec]
      simp [List.replicate_succ]

/-- Claim C3: when a registered break-and-trace request (A, N, over) with
N > 0 is the first entry matching the program counter at an input-request
callback with no session active, a session starts with remaining = N, the
trace-result sequence is cleared, the breakpoint at A is removed from the
engine list (one-shot), and the run records exactly N snapshots of the
successive engine observations - each one built by `mkSnapshot` from the
registers, flag bits, stepOver flag and own-pc disassembly - with every
session callback returning "next" when stepOver is set and "step" otherwise,
then pausing, provided no other breakpoint is hit during the session. -/
theorem break_and_trace_session (s : DriverState) (A N : Nat) (over : Bool)
    (restEntries : List (Nat × Nat × Bool)) (o : EngineObs)
    (rest : List EngineObs)
    (hN : 0 < N)
    (hidle : s.current_break_and_trace_remaining = 0)
    (hpc : o.regs.pc = A)
    (hfind : findFirstSplit A s.break_and_trace_breakpoints =
      some ((A, N, over), restEntries))
    (hlen : rest.length = N)
    (hbp : ∀ o' ∈ rest.take (N - 1),
      o'.regs.pc ∉ s.engine_breakpoints.filter (fun i => i ≠ A))
    (hent : ∀ o' ∈ rest, findFirstSplit o'.regs.pc restEntries = none) :
    on_input_requested s o =
      ({ s with
          current_break_and_trace_remaining := N,
          current_break_and_trace_step_over := over,
          break_and_trace_result := [mkSnapshot over o],
          engine_breakpoints := s.engine_breakpoints.filter (fun i => i ≠ A),
          break_and_trace_breakpoints := restEntries },
        some (if over then "next" else "step")) ∧
    run_until_pause s (o :: rest) =
      ({ s with
          current_break_and_trace_remaining := 0,
          current_break_and_trace_step_over := over,
          break_and_trace_result :=
            (o :: rest.take (N - 1)).map (mkSnapshot over),
          engine_breakpoints := s.engine_breakpoints.filter (fun i => i ≠ A),
          break_and_trace_breakpoints := restEntries,
          bp_paused := true },
        List.replicate N (some (if over then "next" else "step"))
          ++ [none]) := by
  subst hpc
  have htrig := on_input_trigger s o (o.regs.pc, N, over) restEntries hidle
    hfind
  refine ⟨htrig, ?_⟩
  have hrun := session_run rest
    { s with
        current_break_and_trace_remaining := N,
        current_break_and_trace_step_over := over,
        break_and_trace_result := [mkSnapshot over o],
        engine_breakpoints :=
          s.engine_breakpoints.filter (fun i => i ≠ o.regs.pc),
        break_and_trace_breakpoints := restEntries }
    (by show N = rest.length; omega) (by omega)
    (by intro o' ho'; rw [hlen] at ho'; exact hbp o' ho')
    (by intro o' ho'; exact hent o' ho')
  rw [run_until_pause_cons_some s o rest _ _ htrig, hrun]
  cases N with
  | zero => omega
  | succ n =>
    have hn : rest.length - 1 = n := by omega
    simp [hlen, hn, List.replicate_succ]

/-- A session aborts as soon as an observation hits a still-registered
engine breakpoint: the clean prefix appends one snapshot per callback, the
hitting callback decrements and pauses. -/
theorem session_abort (obss : List EngineObs) (s : DriverState)
    (o_bp : EngineObs)
    (hr : obss.length + 1 < s.current_break_and_trace_remaining)
    (hbp : ∀ o ∈ obss, o.regs.pc ∉ s.engine_breakpoints)
    (hhit : o_bp.regs.pc ∈ s.engine_breakpoints)
    (hent : findFirstSplit o_bp.regs.pc s.break_and_trace_breakpoints =
      none) :
    run_until_pause s (obss ++ [o_bp]) =
      ({ s with
          current_break_and_trace_remaining :=
            s.current_break_and_trace_remaining - (obss.length + 1),
          break_and_trace_result := s.break_and_trace_result ++
            obss.map (mkSnapshot s.current_break_and_trace_step_over),
          bp_paused := true },
        List.replicate obss.length
            (some (if s.current_break_and_trace_step_over then "next"
              else "step"))
          ++ [none]) := by
  induction obss generalizing s with
  | nil =>
    have hstep := on_input_abort s o_bp (by simpa using hr) hhit hent
    rw [List.nil_append, run_until_pause_cons_none s o_bp [] _ hstep]
    simp
  | cons o obss' ih =>
    have hr1 : 1 < s.current_break_and_trace_remaining := by
      simp at hr; omega
    have hbp0 : o.regs.pc ∉ s.engine_breakpoints := hbp o (by simp)
    have hstep := on_input_mid_session s o hr1 hbp0
    have hrec := ih
      { s with
          current_break_and_trace_remaining :=
            s.current_break_and_trace_remaining - 1,
          break_and_trace_result := s.break_and_trace_result ++
            [mkSnapshot s.current_break_and_trace_step_over o] }
      (by simp at hr ⊢; omega)
      (by intro o' ho'; exact hbp o' (List.mem_cons_of_mem o ho'))
      hhit hent
    rw [List.cons_append,
      run_until_pause_cons_some s o (obss' ++ [o_bp]) _ _ hstep, hrec]
    have harith : s.current_break_and_trace_remaining - 1 -
        (obss'.length + 1) =
        s.current_break_and_trace_remaining - ((o :: obss').length + 1) := by
      simp; omega
    rw [harith]
    simp [List.replicate_succ]

/-- Claim C4: during an active break-and-trace session each input-request
callback first decrements the remaining count, and when the program counter
then equals a still-registered breakpoint address the session is aborted
early as a normal breakpoint hit (pause), so the run records fewer than
stepCount snapshots even though steps remain. -/
theorem break_and_trace_abort (s : DriverState) (A N : Nat) (over : Bool)
    (restEntries : List (Nat × Nat × Bool)) (o o_bp : EngineObs)
    (rest_clean : List EngineObs)
    (hidle : s.current_break_and_trace_remaining = 0)
    (hpc : o.regs.pc = A)
    (hfind : findFirstSplit A s.break_and_trace_breakpoints =
      some ((A, N, over), restEntries))
    (hlt : rest_clean.length + 2 ≤ N)
    (hbp : ∀ o' ∈ rest_clean,
      o'.regs.pc ∉ s.engine_breakpoints.filter (fun i => i ≠ A))
    (hhit : o_bp.regs.pc ∈ s.engine_breakpoints.filter (fun i => i ≠ A))
    (hent : findFirstSplit o_bp.regs.pc restEntries = none) :
    run_until_pause s (o :: rest_clean ++ [o_bp]) =
      ({ s with
          current_break_and_trace_remaining := N - (rest_clean.length + 1),
          current_break_and_trace_step_over := over,
          break_and_trace_result :=
            (o :: rest_clean).map (mkSnapshot over),
          engine_breakpoints := s.engine_breakpoints.filter (fun i => i ≠ A),
          break_and_trace_breakpoints := restEntries,
          bp_paused := true },
        List.replicate (rest_clean.length + 1)
            (some (if over then "next" else "step"))
          ++ [none]) ∧
    ((o :: rest_clean).map (mkSnapshot over)).length < N ∧
    0 < N - (rest_clean.length + 1) := by
  subst hpc
  have htrig := on_input_trigger s o (o.regs.pc, N, over) restEntries hidle
    hfind
  have habort := session_abort rest_clean
    { s with
        current_break_and_trace_remaining := N,
        current_break_and_trace_step_over := over,
        break_and_trace_result := [mkSnapshot over o],
        engine_breakpoints :=
          s.engine_breakpoints.filter (fun i => i ≠ o.regs.pc),
        break_and_trace_breakpoints := restEntries }
    o_bp
    (by show rest_clean.length + 1 < N; omega)
    (by intro o' ho'; exact hbp o' ho') hhit hent
  refine ⟨?_, by simp; omega, by omega⟩
  rw [List.cons_append,
    run_until_pause_cons_some s o (rest_clean ++ [o_bp]) _ _ htrig, habort]
  simp [List.replicate_succ]

/-- Witness for C3: a request (5, 2, false) triggered at pc 5 records
exactly 2 snapshots and pauses. -/
theorem break_and_trace_session_witness :
    (run_until_pause ⟨0, false, [(5, 2, false)], [], [5, 9], false, none⟩
      [⟨⟨0, 0, 0, 0, 0, 0x10, 0, 0, 5⟩, "first"⟩,
        ⟨⟨0, 0, 0, 0, 0, 0, 0, 0, 6⟩, "second"⟩,
        ⟨⟨0, 0, 0, 0, 0, 0, 0, 0, 7⟩, "third"⟩]).1.break_and_trace_result.length
      = 2 ∧
    (run_until_pause ⟨0, false, [(5, 2, false)], [], [5, 9], false, none⟩
      [⟨⟨0, 0, 0, 0, 0, 0x10, 0, 0, 5⟩, "first"⟩,
        ⟨⟨0, 0, 0, 0, 0, 0, 0, 0, 6⟩, "second"⟩,
        ⟨⟨0, 0, 0, 0, 0, 0, 0, 0, 7⟩, "third"⟩]).1.bp_paused = true := by
  have h := break_and_trace_session
    ⟨0, false, [(5, 2, false)], [], [5, 9], false, none⟩ 5 2 false []
    ⟨⟨0, 0, 0, 0, 0, 0x10, 0, 0, 5⟩, "first"⟩
    [⟨⟨0, 0, 0, 0, 0, 0, 0, 0, 6⟩, "second"⟩,
      ⟨⟨0, 0, 0, 0, 0, 0, 0, 0, 7⟩, "third"⟩]
    (by decide) (by decide) (by decide) (by decide) (by decide)
    (by decide) (by decide)
  rw [h.2]
  decide

/-- Witness for C4: a request (5, 3, true) triggered at pc 5 whose next
callback lands on the still-registered breakpoint 9 aborts after a single
snapshot with 2 steps remaining. -/
theorem break_and_trace_abort_witness :
    (run_until_pause ⟨0, false, [(5, 3, true)], [], [5, 9], false, none⟩
      [⟨⟨0, 0, 0, 0, 0, 0x10, 0, 0, 5⟩, "first"⟩,
        ⟨⟨0, 0, 0, 0, 0, 0, 0, 0, 9⟩, "hit"⟩]).1.break_and_trace_result.length
      = 1 ∧
    (run_until_pause ⟨0, false, [(5, 3, true)], [], [5, 9], false, none⟩
      [⟨⟨0, 0, 0, 0, 0, 0x10, 0, 0, 5⟩, "first"⟩,
        ⟨⟨0, 0, 0, 0, 0, 0, 0, 0, 9⟩, "hit"⟩]).1.current_break_and_trace_remaining
      = 2 ∧
    (run_until_pause ⟨0, false, [(5, 3, true)], [], [5, 9], false, none⟩
      [⟨⟨0, 0, 0, 0, 0, 0x10, 0, 0, 5⟩, "first"⟩,
        ⟨⟨0, 0, 0, 0, 0, 0, 0, 0, 9⟩, "hit"⟩]).1.bp_paused = true := by
  have h := break_and_trace_abort
    ⟨0, false, [(5, 3, true)], [], [5, 9], false, none⟩ 5 3 true []
    ⟨⟨0, 0, 0, 0, 0, 0x10, 0, 0, 5⟩, "first"⟩
    ⟨⟨0, 0, 0, 0, 0, 0, 0, 0, 9⟩, "hit"⟩ []
    (by decide) (by decide) (by decide) (by decide) (by decide)
    (by decide) (by decide)
  have h1 := h.1
  simp only [List.cons_append, List.nil_append] at h1
  rw [h1]
  decide

/-- Claim C9: `unbreak` is effective only while `bp_paused` is true, in
which case it stores the continue command and clears the paused flag; when
not paused at a breakpoint it leaves the whole state unchanged. -/
theorem unbreak_only_when_paused (s : DriverState) (command : String) :
    (s.bp_paused = true →
      unbreak s command =
        { s with continue_text := some command, bp_paused := false }) ∧
    (s.bp_paused = false → unbreak s command = s) := by
  constructor
  · intro h
    simp [unbreak, h]
  · intro h
    simp [unbreak, h]

/-- Witness for C9: a paused state receives the command and unpauses, an
unpaused state is untouched. -/
theorem unbreak_only_when_paused_witness :
    unbreak ⟨0, false, [], [], [], true, none⟩ "continue" =
      ⟨0, false, [], [], [], false, some "continue"⟩ ∧
    unbreak ⟨0, false, [], [], [], false, none⟩ "continue" =
      ⟨0, false, [], [], [], false, none⟩ :=
  ⟨(unbreak_only_when_paused ⟨0, false, [], [], [], true, none⟩
      "continue").1 rfl,
    (unbreak_only_when_paused ⟨0, false, [], [], [], false, none⟩
      "continue").2 rfl⟩

theorem findFirstSplit_none_filter (b : Nat) (l : List (Nat × Nat × Bool))
    (h : findFirstSplit b l = none) :
    l.filter (fun e => e.1 != b) = l := by
  induction l with
  | nil => rfl
  | cons e rest ih =>
    by_cases he : e.1 = b
    · simp [findFirstSplit, he] at h
    · simp only [findFirstSplit, he, if_false, Option.map_eq_none'] at h
      simp [List.filter_cons, he, ih h]

theorem findFirstSplit_some_filter (b : Nat) (l : List (Nat × Nat × Bool))
    (p : (Nat × Nat × Bool) × List (Nat × Nat × Bool))
    (h : findFirstSplit b l = some p) :
    p.2.filter (fun e => e.1 != b) = l.filter (fun e => e.1 != b) := by
  induction l generalizing p with
  | nil => simp [findFirstSplit] at h
  | cons e rest ih =>
    by_cases he : e.1 = b
    · simp only [findFirstSplit, he, if_true, Option.some.injEq] at h
      rw [← h]
      simp [List.filter_cons, he]
    · simp only [findFirstSplit, he, if_false, Option.map_eq_some'] at h
      obtain ⟨q, hq, rfl⟩ := h
      simp [List.filter_cons, he, ih q hq]

theorem removeMatchingEntries_eq_filter (b : Nat)
    (l : List (Nat × Nat × Bool)) :
    removeMatchingEntries b l = l.filter (fun e => e.1 != b) := by
  have main : ∀ (n : Nat) (l : List (Nat × Nat × Bool)), l.length = n →
      removeMatchingEntries b l = l.filter (fun e => e.1 != b) := by
    intro n
    induction n using Nat.strong_induction_on with
    | _ n ihn =>
      intro l hn
      rw [removeMatchingEntries.eq_def]
      cases hfind : findFirstSplit b l with
      | none =>
        simp only [hfind]
        exact (findFirstSplit_none_filter b l hfind).symm
      | some p =>
        simp only [hfind]
        have hlt : p.2.length < n := by
          rw [← hn]
          exact findFirstSplit_some_length b l p hfind
        rw [ihn p.2.length hlt p.2 rfl]
        exact findFirstSplit_some_filter b l p hfind
  exact main l.length l rfl

/-- Claim C10: after `remove_breakpoint(a)` the break-and-trace entry list
is exactly the original list with every entry at address `a` removed -
entries at other addresses are preserved in their original order (the result
is the order-preserving filter), and no entry at `a` remains. -/
theorem remove_breakpoint_entries (s : DriverState) (a : Nat) :
    (remove_breakpoint s a).break_and_trace_breakpoints =
      s.break_and_trace_breakpoints.filter (fun e => e.1 != a) ∧
    (remove_breakpoint s a).break_and_trace_breakpoints.all
      (fun e => e.1 != a) = true := by
  have h1 : (remove_breakpoint s a).break_and_trace_breakpoints =
      s.break_and_trace_breakpoints.filter (fun e => e.1 != a) :=
    removeMatchingEntries_eq_filter a s.break_and_trace_breakpoints
  refine ⟨h1, ?_⟩
  rw [h1]
  simp [List.all_eq_true, List.mem_filter]

/-! ## Audio streamer (GameInstance::on_sample, reset_audio, set_volume) -/

/-- The SDL audio device as the driver sees it: the queue of 16-bit samples
(`SDL_GetQueuedAudioSize` reports its byte count) and the pause flag
(`SDL_PauseAudioDevice`). -/
structure AudioDevice where
  queued : List Int
  device_paused : Bool
deriving DecidableEq, Repr

/-- The audio-related fields of a `GameInstance`.  `volume_scale` holds the
stored double coefficient; every finite double is a rational, so the field is
modelled as an arbitrary rational (its ideal real value is the subject of
claim C6). -/
structure AudioState where
  audio_enabled : Bool
  sample_buffer : List Int
  sdl_audio_device : Option AudioDevice
  sdl_audio_buffer_size : Nat
  turbo_mode_enabled : Bool
  volume : Int
  volume_scale : Rat
  force_mono : Bool
deriving DecidableEq, Repr

/-- `GameInstance::reset_audio`: pause the device and clear its queue when
one is attached, then clear the internal sample buffer. -/
def reset_audio_state (s : AudioState) : AudioState :=
  match s.sdl_audio_device with
  | some _ =>
    { s with
        sdl_audio_device := some { queued := [], device_paused := true },
        sample_buffer := [] }
  | none => { s with sample_buffer := [] }

/-- Truncation of a rational toward zero: the conversion performed when the
double product `sample * volume_scale` is stored back into an int16. -/
def ratTrunc (q : Rat) : Int :=
  if 0 ≤ q then ⌊q⌋ else ⌈q⌉

/-- `GameInstance::on_sample`, one engine sample-pair callback: optional
mono downmix (C integer division truncates toward zero) and volume scaling,
then either the device-backpressure path or plain accumulation into the
internal buffer.  `frames_queued` is the queued byte count (2 bytes per
sample) divided by `sizeof(GB_sample_t) = 4`. -/
def on_sample (s : AudioState) (left right : Int) : AudioState :=
  if s.audio_enabled then
    let lr :=
      if s.volume < 100 ∨ s.force_mono then
        let lr :=
          if s.force_mono then
            let m := (left + right).tdiv 2
            (m, m)
          else (left, right)
        if s.volume < 100 ∧ 0 ≤ s.volume then
          (ratTrunc (s.volume_scale * lr.1), ratTrunc (s.volume_scale * lr.2))
        else lr
      else (left, right)
    match s.sdl_audio_device with
    | some dev =>
      let frames_queued := 2 * dev.queued.length / 4
      let buffer_size := s.sdl_audio_buffer_size
      let turbo_mode := s.turbo_mode_enabled
      let max_frames_queued := buffer_size * (if turbo_mode then 4 else 8)
      if frames_queued > max_frames_queued then
        if turbo_mode = false then reset_audio_state s else s
      else
        let s1 := { s with sample_buffer := s.sample_buffer ++ [lr.1, lr.2] }
        let required_buffered_frames :=
          if turbo_mode then 0
          else if frames_queued < buffer_size * 2 then buffer_size * 4
          else buffer_size
        let actual_buffered_frames := s1.sample_buffer.length / 2
        if actual_buffered_frames ≥ required_buffered_frames then
          { s1 with
              sdl_audio_device :=
                some { queued := dev.queued ++ s1.sample_buffer,
                       device_paused := false },
              sample_buffer := [] }
        else s1
    | none =>
      { s with sample_buffer := s.sample_buffer ++ [lr.1, lr.2] }
  else s

/-- Counterexample to claim C5 as stated: with an output device attached but
audio disabled, an overrun (queue of 20 frames against a limit of
bufferSize 1 times 8) outside turbo mode leaves the device queue and pause
flag untouched instead of flushing them - the flush only happens when the
`audio_enabled` flag is set. -/
theorem on_sample_overrun_counterexample :
    on_sample
        ⟨false, [], some ⟨List.replicate 40 0, false⟩, 1, false, 100, 1,
          false⟩ 1 1 =
      ⟨false, [], some ⟨List.replicate 40 0, false⟩, 1, false, 100, 1,
        false⟩ ∧
    2 * (List.replicate 40 (0 : Int)).length / 4 > 1 * 8 := by
  constructor
  · rfl
  · decide

/-- Claim C5 (amended with the audio-enabled precondition): on an
engine-produced sample pair with audio enabled and a device attached whose
queued frame count exceeds bufferSize times (4 in turbo mode, 8 otherwise),
the new samples are not appended; outside turbo mode the device queue and
the internal buffer are flushed and the device paused, while in turbo mode
the whole state is left unchanged. -/
theorem on_sample_overrun (s : AudioState) (dev : AudioDevice)
    (left right : Int)
    (henabled : s.audio_enabled = true)
    (hdev : s.sdl_audio_device = some dev)
    (hover : 2 * dev.queued.length / 4 >
      s.sdl_audio_buffer_size * (if s.turbo_mode_enabled then 4 else 8)) :
    on_sample s left right =
      (if s.turbo_mode_enabled then s
       else
        { s with
            sdl_audio_device := some { queued := [], device_paused := true },
            sample_buffer := [] }) := by
  cases hturbo : s.turbo_mode_enabled with
  | true =>
    rw [hturbo] at hover
    simp only [if_true] at hover
    have hnot : ¬ (2 * dev.queued.length / 4 ≤ s.sdl_audio_buffer_size * 4) :=
      by omega
    simp [on_sample, henabled, hdev, hturbo, hover, hnot]
  | false =>
    rw [hturbo] at hover
    simp at hover
    have hnot : ¬ (2 * dev.queued.length / 4 ≤ s.sdl_audio_buffer_size * 8) :=
      by omega
    simp [on_sample, reset_audio_state, henabled, hdev, hturbo, hover, hnot]

/-- Witness for C5: a non-turbo overrun flushes queue and buffer and pauses
the device. -/
theorem on_sample_overrun_witness :
    on_sample ⟨true, [3], some ⟨List.replicate 40 0, false⟩, 1, false, 100,
        1, false⟩ 1 1 =
      (if (⟨true, [3], some ⟨List.replicate 40 0, false⟩, 1, false, 100, 1,
          false⟩ : AudioState).turbo_mode_enabled then
        ⟨true, [3], some ⟨List.replicate 40 0, false⟩, 1, false, 100, 1,
          false⟩
       else
        { (⟨true, [3], some ⟨List.replicate 40 0, false⟩, 1, false, 100, 1,
            false⟩ : AudioState) with
            sdl_audio_device := some { queued := [], device_paused := true },
            sample_buffer := [] }) :=
  on_sample_overrun
    ⟨true, [3], some ⟨List.replicate 40 0, false⟩, 1, false, 100, 1, false⟩
    ⟨List.replicate 40 0, false⟩ 1 1 rfl rfl (by decide)

/-- The clamp in `GameInstance::set_volume`:
`std::min(100, std::max(0, volume))`. -/
def set_volume_volume (volume : Int) : Int := min 100 (max 0 volume)

/-- The exact real value of the gain formula in `GameInstance::set_volume`:
`std::pow(100.0, volume / 100.0) / 100.0 - 0.01 * (100.0 - volume) / 100.0`
(the stored double is the rounding of this real). -/
noncomputable def volume_scale_formula (volume : ℝ) : ℝ :=
  (100 : ℝ) ^ (volume / 100) / 100 - 0.01 * (100 - volume) / 100

/-- `GameInstance::set_volume`: the pair (new volume, new gain), the gain
computed from the clamped volume. -/
noncomputable def set_volume (volume : Int) : Int × ℝ :=
  (set_volume_volume volume,
    volume_scale_formula (set_volume_volume volume))

theorem volume_scale_formula_monotone : Monotone volume_scale_formula := by
  intro a b hab
  unfold volume_scale_formula
  have h1 : (100 : ℝ) ^ (a / 100) ≤ (100 : ℝ) ^ (b / 100) := by
    apply (Real.rpow_le_rpow_left_iff (by norm_num)).mpr
    linarith
  linarith

/-- Claim C6: `set_volume` clamps its argument to [0, 100] and derives the
gain from the clamped volume by the documented formula; the formula is
monotonically non-decreasing over [0, 100], its value at volume 100 is 1,
and at volume 100 (without forced mono) `on_sample` stores the sample pair
unchanged - no attenuation. -/
theorem set_volume_gain :
    (∀ v : Int, 0 ≤ (set_volume v).1 ∧ (set_volume v).1 ≤ 100) ∧
    (∀ v : Int,
      (set_volume v).2 = volume_scale_formula ((set_volume v).1 : ℝ)) ∧
    MonotoneOn volume_scale_formula (Set.Icc (0 : ℝ) 100) ∧
    volume_scale_formula 100 = 1 ∧
    (∀ (s : AudioState) (left right : Int),
      s.volume = 100 → s.force_mono = false → s.audio_enabled = true →
      s.sdl_audio_device = none →
      on_sample s left right =
        { s with sample_buffer := s.sample_buffer ++ [left, right] }) := by
  refine ⟨?_, ?_, ?_, ?_, ?_⟩
  · intro v
    constructor <;> simp [set_volume, set_volume_volume]
  · intro v
    rfl
  · exact volume_scale_formula_monotone.monotoneOn _
  · unfold volume_scale_formula
    rw [show (100 : ℝ) / 100 = 1 by norm_num, Real.rpow_one]
    norm_num
  · intro s left right hvol hmono hen hdev
    simp [on_sample, hvol, hmono, hen, hdev]

/-- Witness for C6: at volume 100 a sample pair lands in the internal
buffer unchanged. -/
theorem set_volume_gain_witness :
    on_sample ⟨true, [], none, 0, false, 100, 1, false⟩ 7 (-9) =
      { (⟨true, [], none, 0, false, 100, 1, false⟩ : AudioState) with
          sample_buffer := [] ++ [7, -9] } :=
  set_volume_gain.2.2.2.2 ⟨true, [], none, 0, false, 100, 1, false⟩ 7 (-9)
    rfl rfl rfl rfl

/-! ## Driver loop rewind handling (GameInstance::start_game_loop and the
rewind flags set by on_vblank / set_rewind) -/

/-- The loop-relevant fields of a `GameInstance`: the depth of the
engine-owned rewind history (opaque; only pop success matters), the
rewind-request flag set at vblank (`should_rewind`), the rewind input
(`rewinding`), and the three pause flags. -/
structure LoopState where
  rewind_history : Nat
  should_rewind : Bool
  rewinding : Bool
  rewind_paused : Bool
  manual_paused : Bool
  pause_zero_speed : Bool
deriving DecidableEq, Repr

/-- `GB_rewind_pop`: pop one entry from the engine history, returning
whether an entry was available. -/
def rewind_pop (n : Nat) : Bool × Nat := (decide (0 < n), n - 1)

/-- One iteration of the loop body of `GameInstance::start_game_loop`,
timing and frame-rate bookkeeping aside: first cancel the rewind pause when
the rewind input is no longer held; when no pause flag is set, consume a
pending rewind request - pop once to discard the currently-displayed entry,
pop again for the target state, set `rewind_paused` when the second pop
fails, clear the request flag - and then advance the engine with `GB_run`;
when paused, sleep instead of advancing.  The returned Bool reports whether
`GB_run` was invoked (the engine advanced). -/
def game_loop_iteration (s : LoopState) : LoopState × Bool :=
  let s := { s with rewind_paused := s.rewind_paused && s.rewinding }
  if s.manual_paused = false ∧ s.rewind_paused = false ∧
      s.pause_zero_speed = false then
    let s :=
      if s.should_rewind then
        let pop1 := rewind_pop s.rewind_history
        let pop2 := rewind_pop pop1.2
        { s with
            rewind_history := pop2.2,
            rewind_paused := if pop2.1 then s.rewind_paused else true,
            should_rewind := false }
      else s
    (s, true)
  else
    (s, false)

/-- Counterexample to claim C7 as stated: on a fresh instance (empty
history) with a rewind flagged and the rewind input held, the iteration sets
`rewind_paused` but still advances the engine (`GB_run` runs) in that same
iteration, so "the engine is not advanced" does not hold for the iteration
in which the second pop fails. -/
theorem game_loop_rewind_counterexample :
    (game_loop_iteration ⟨0, true, true, false, false, false⟩).1.rewind_paused
      = true ∧
    (game_loop_iteration ⟨0, true, true, false, false, false⟩).2 = true := by
  decide

/-- Claim C7 (amended): when a rewind was flagged and the iteration is not
otherwise paused, the history is popped twice and the request flag is
cleared in all cases; if the second pop fails (history of at most one entry,
including a fresh instance) `rewind_paused` is set, yet the engine is still
advanced once in that same iteration; from the next iteration on, while
`rewind_paused` holds and the rewind input stays held, the engine is not
advanced. -/
theorem game_loop_rewind (s : LoopState) :
    (s.manual_paused = false → s.pause_zero_speed = false →
      (s.rewind_paused = false ∨ s.rewinding = false) →
      s.should_rewind = true →
      (game_loop_iteration s).1.should_rewind = false ∧
      (game_loop_iteration s).1.rewind_history = s.rewind_history - 2 ∧
      (s.rewind_history ≤ 1 →
        (game_loop_iteration s).1.rewind_paused = true) ∧
      (2 ≤ s.rewind_history →
        (game_loop_iteration s).1.rewind_paused = false) ∧
      (game_loop_iteration s).2 = true) ∧
    (s.rewind_paused = true → s.rewinding = true →
      game_loop_iteration s = ({ s with rewind_paused := true }, false)) := by
  constructor
  · intro h1 h2 h3 h4
    have hcancel : (s.rewind_paused && s.rewinding) = false := by
      rcases h3 with h | h <;> simp [h]
    by_cases hh : 0 < s.rewind_history - 1
    · have h2le : 2 ≤ s.rewind_history := by omega
      simp [game_loop_iteration, rewind_pop, h1, h2, h4, hcancel, hh,
        Nat.sub_sub, h2le]
      omega
    · have h1ge : s.rewind_history ≤ 1 := by omega
      simp [game_loop_iteration, rewind_pop, h1, h2, h4, hcancel, hh,
        Nat.sub_sub, h1ge]
      omega
  · intro hp hw
    simp [game_loop_iteration, hp, hw]

/-- Witness for the amended C7: a fresh instance with a held rewind request
pauses the rewind, clears the flag, and still runs the engine once; the next
iteration then does not advance the engine. -/
theorem game_loop_rewind_witness :
    ((game_loop_iteration ⟨0, true, true, false, false, false⟩).1.should_rewind
        = false ∧
      (game_loop_iteration
        ⟨0, true, true, false, false, false⟩).1.rewind_history = 0 - 2 ∧
      ((0 : Nat) ≤ 1 →
        (game_loop_iteration
          ⟨0, true, true, false, false, false⟩).1.rewind_paused = true) ∧
      ((2 : Nat) ≤ 0 →
        (game_loop_iteration
          ⟨0, true, true, false, false, false⟩).1.rewind_paused = false) ∧
      (game_loop_iteration ⟨0, true, true, false, false, false⟩).2 = true) ∧
    (game_loop_iteration ⟨0, false, true, true, false, false⟩ =
      ({ (⟨0, false, true, true, false, false⟩ : LoopState) with
          rewind_paused := true }, false)) :=
  ⟨(game_loop_rewind ⟨0, true, true, false, false, false⟩).1 rfl rfl
      (Or.inl rfl) rfl,
    (game_loop_rewind ⟨0, false, true, true, false, false⟩).2 rfl rfl⟩

end SuperSameboy
